import Mathlib

/-!
Verification of the µfmt formatting orchestrator (`ufmt`).

This file gives a shallow embedding of the core data model and operations of
the repository — `ufmt/types.py` (`Result`, `SkipFormatting`, `Sorter`,
`Formatter`), `ufmt/util.py` (`normalize_result`, `read_file`, `write_file`)
and `ufmt/core.py` (`ufmt_bytes`, `ufmt_file`, `ufmt_paths`) — and proves or
refutes the specified properties about them.

File contents are byte sequences, modelled as `List Nat`.  External
collaborators (the µsort / black / ruff backends, text codecs, the unified
diff routine, the trailrunner process pool and the filesystem) are modelled
as explicit parameters: the embedding of each repository function is a
faithful transcription of its control flow over those parameters.
-/

namespace Ufmt

/-- File contents as a byte sequence (Python `bytes`). -/
abbrev Bytes := List Nat

/-- A text encoding name (Python `str`), e.g. `"utf-8"`. -/
abbrev Encoding := String

/-- A filesystem path, modelled by its string representation. -/
abbrev Path := String

/-- The stdin sentinel path `Path("-")` from `ufmt/types.py`. -/
def STDIN : Path := "-"

instance {ε α : Type} [DecidableEq ε] [DecidableEq α] :
    DecidableEq (Except ε α) := fun a b =>
  match a, b with
  | Except.ok x, Except.ok y =>
    if h : x = y then isTrue (by rw [h]) else isFalse (by simp [h])
  | Except.error x, Except.error y =>
    if h : x = y then isTrue (by rw [h]) else isFalse (by simp [h])
  | Except.ok _, Except.error _ => isFalse (by simp)
  | Except.error _, Except.ok _ => isFalse (by simp)

/-- The byte sequence `b"\n"`. -/
def LF : Bytes := [10]

/-- The byte sequence `b"\r\n"`. -/
def CRLF : Bytes := [13, 10]

/-- Fuel-driven core of Python `bytes.replace`: scan `s` left to right; at
each position, if the (nonempty) pattern `pat` matches, emit `rep` and skip
past the match, otherwise copy one byte.  The fuel only bounds recursion
depth: every step consumes at least one byte of `s`, so any fuel of at least
`s.length` computes the replacement (an empty pattern is treated as matching
nowhere; the repository only ever replaces the nonempty patterns `b"\n"` and
`b"\r\n"`). -/
def replaceAux (pat rep : Bytes) : Nat → Bytes → Bytes
  | _, [] => []
  | 0, s => s
  | fuel + 1, c :: rest =>
    if !pat.isEmpty && pat.isPrefixOf (c :: rest) then
      rep ++ replaceAux pat rep fuel ((c :: rest).drop pat.length)
    else
      c :: replaceAux pat rep fuel rest

/-- Python `s.replace(pat, rep)` for byte strings (nonempty `pat`). -/
def bytesReplace (s pat rep : Bytes) : Bytes :=
  replaceAux pat rep s.length s

theorem replaceAux_nil (pat rep : Bytes) (fuel : Nat) :
    replaceAux pat rep fuel [] = [] := by
  cases fuel <;> rfl

theorem replaceAux_succ_cons (pat rep : Bytes) (f c : Nat) (rest : Bytes) :
    replaceAux pat rep (f + 1) (c :: rest) =
      if !pat.isEmpty && pat.isPrefixOf (c :: rest) then
        rep ++ replaceAux pat rep f ((c :: rest).drop pat.length)
      else
        c :: replaceAux pat rep f rest := rfl

theorem length_drop_lt_of_isPrefixOf {pat : Bytes} {c : Nat} {rest : Bytes}
    (hne : pat ≠ []) (hpre : pat.isPrefixOf (c :: rest) = true) :
    ((c :: rest).drop pat.length).length ≤ rest.length := by
  have hlen : 1 ≤ pat.length := by
    cases pat with
    | nil => exact absurd rfl hne
    | cons a as => simp
  simp only [List.length_drop, List.length_cons]
  omega

/-- Computing `replaceAux` with any sufficient fuel gives the same answer. -/
theorem replaceAux_congr (pat rep : Bytes) :
    ∀ (f g : Nat) (s : Bytes), s.length ≤ f → s.length ≤ g →
      replaceAux pat rep f s = replaceAux pat rep g s := by
  intro f
  induction f with
  | zero =>
    intro g s hf _
    have : s = [] := by
      cases s with
      | nil => rfl
      | cons c rest => simp at hf
    subst this
    simp [replaceAux_nil]
  | succ f ih =>
    intro g s hf hg
    cases s with
    | nil => simp [replaceAux_nil]
    | cons c rest =>
      cases g with
      | zero => simp at hg
      | succ g =>
        rw [replaceAux_succ_cons, replaceAux_succ_cons]
        by_cases hcond : (!pat.isEmpty && pat.isPrefixOf (c :: rest)) = true
        · have hne : pat ≠ [] := by
            intro h
            subst h
            simp at hcond
          have hpre : pat.isPrefixOf (c :: rest) = true := by
            simp only [Bool.and_eq_true] at hcond
            exact hcond.2
          have hdrop := length_drop_lt_of_isPrefixOf hne hpre
          rw [if_pos hcond, if_pos hcond]
          have h1 : ((c :: rest).drop pat.length).length ≤ f := by
            simp only [List.length_cons] at hf
            omega
          have h2 : ((c :: rest).drop pat.length).length ≤ g := by
            simp only [List.length_cons] at hg
            omega
          exact congrArg (rep ++ ·) (ih g _ h1 h2)
        · rw [if_neg hcond, if_neg hcond]
          have h1 : rest.length ≤ f := by
            simp only [List.length_cons] at hf
            omega
          have h2 : rest.length ≤ g := by
            simp only [List.length_cons] at hg
            omega
          exact congrArg (c :: ·) (ih g rest h1 h2)

theorem bytesReplace_nil (pat rep : Bytes) : bytesReplace [] pat rep = [] := rfl

/-- Unfolding `bytesReplace` at a matching position. -/
theorem bytesReplace_cons_pos {pat : Bytes} {c : Nat} {rest : Bytes}
    (rep : Bytes) (hne : pat ≠ []) (hpre : pat.isPrefixOf (c :: rest) = true) :
    bytesReplace (c :: rest) pat rep =
      rep ++ bytesReplace ((c :: rest).drop pat.length) pat rep := by
  have hcond : (!pat.isEmpty && pat.isPrefixOf (c :: rest)) = true := by
    simp [hpre, List.isEmpty_iff, hne]
  have hdrop := length_drop_lt_of_isPrefixOf hne hpre
  show replaceAux pat rep (rest.length + 1) (c :: rest) = _
  rw [replaceAux_succ_cons, if_pos hcond]
  congr 1
  exact replaceAux_congr pat rep rest.length ((c :: rest).drop pat.length).length
    ((c :: rest).drop pat.length) hdrop (le_refl _)

/-- Unfolding `bytesReplace` at a non-matching position. -/
theorem bytesReplace_cons_neg {pat : Bytes} {c : Nat} {rest : Bytes}
    (rep : Bytes) (hpre : pat.isPrefixOf (c :: rest) = false) :
    bytesReplace (c :: rest) pat rep = c :: bytesReplace rest pat rep := by
  have hcond : ¬ ((!pat.isEmpty && pat.isPrefixOf (c :: rest)) = true) := by
    simp [hpre]
  show replaceAux pat rep (rest.length + 1) (c :: rest) = _
  rw [replaceAux_succ_cons, if_neg hcond]
  rfl

/-- Replacing a pattern by itself is the identity (`b"…".replace(p, p)`). -/
theorem bytesReplace_self (s pat : Bytes) : bytesReplace s pat pat = s := by
  suffices h : ∀ (f : Nat) (s : Bytes), s.length ≤ f →
      replaceAux pat pat f s = s by
    exact h s.length s (le_refl _)
  intro f
  induction f with
  | zero =>
    intro s hf
    cases s with
    | nil => rfl
    | cons c rest => simp at hf
  | succ f ih =>
    intro s hf
    cases s with
    | nil => rfl
    | cons c rest =>
      rw [replaceAux_succ_cons]
      by_cases hcond : (!pat.isEmpty && pat.isPrefixOf (c :: rest)) = true
      · have hne : pat ≠ [] := by
          intro h
          subst h
          simp at hcond
        have hpre : pat.isPrefixOf (c :: rest) = true := by
          simp only [Bool.and_eq_true] at hcond
          exact hcond.2
        have hdrop := length_drop_lt_of_isPrefixOf hne hpre
        rw [if_pos hcond]
        have h1 : ((c :: rest).drop pat.length).length ≤ f := by
          simp only [List.length_cons] at hf
          omega
        rw [ih _ h1]
        have hpre2 : pat <+: (c :: rest) := List.isPrefixOf_iff_prefix.mp hpre
        obtain ⟨t, ht⟩ := hpre2
        rw [← ht, List.drop_left]
      · rw [if_neg hcond]
        have h1 : rest.length ≤ f := by
          simp only [List.length_cons] at hf
          omega
        rw [ih _ h1]

/-!
Embedding of `ufmt/util.py`.
-/

/-- From `ufmt/util.py`, `normalize_result(content, newline)`: convert bytes
content with UNIX style line endings to the given style; a no-op if `newline`
is `b"\n"` (`if newline != b"\n": content = content.replace(b"\n", newline)`). -/
def normalize_result (content : Bytes) (newline : Bytes) : Bytes :=
  if newline ≠ LF then bytesReplace content LF newline else content

/-- The first raw line of a byte sequence: everything up to and including the
first `b"\n"`, or the whole sequence if it holds none.  This is what
`buf.readline` hands to `tokenize.detect_encoding` as `lines[0]` in
`read_file`. -/
def firstLine : Bytes → Bytes
  | [] => []
  | c :: rest => if c = 10 then [c] else c :: firstLine rest

/-- Newline detection from `read_file`:
`newline = b"\r\n" if lines and lines[0].endswith(b"\r\n") else b"\n"`
(`lines` is empty exactly when the file is empty). -/
def detectNewline (raw : Bytes) : Bytes :=
  if raw ≠ [] ∧ CRLF.isSuffixOf (firstLine raw) then CRLF else LF

/-- From `ufmt/util.py`, `read_file(path)`, applied to the raw on-disk bytes
of the file: detect the newline style from the first line, read the content,
and normalize the detected newline style to `b"\n"`
(`content = content.replace(newline, b"\n")`).  Returns the pair of file
content and newline style.  (The encoding component of the Python triple is
produced by the external `tokenize.detect_encoding` and never affects the
byte content, so it is carried separately where needed.) -/
def read_file (raw : Bytes) : Bytes × Bytes :=
  let newline := detectNewline raw
  (bytesReplace raw newline LF, newline)

/-- From `ufmt/util.py`, `write_file(path, content, newline)`: the bytes that
end up on disk after a successful write — the content with `b"\n"` expanded
back to the given newline style (`content = normalize_result(content, newline)`
followed by `buf.write(content)`). -/
def write_file (content : Bytes) (newline : Bytes) : Bytes :=
  normalize_result content newline

/-- The sequence of on-disk states observable while `write_file` runs.
`write_file` executes `open(path, "wb")`, which truncates the file to zero
bytes, and then a single `buf.write(content)` of the expanded bytes.  The
observable disk states are therefore the original contents (before `open`),
followed by every prefix of the expanded content: the empty state right after
the truncating `open`, each partial state should the write stop after `k`
bytes, and finally the complete expanded content. -/
def write_file_states (disk content newline : Bytes) : List Bytes :=
  disk :: (List.range ((normalize_result content newline).length + 1)).map
    (fun k => (normalize_result content newline).take k)

/-- A byte sequence has consistent CRLF line endings when every `b"\n"` in it
is immediately preceded by `b"\r"` (no bare line feeds). -/
def consistentCRLF : Bytes → Bool
  | [] => true
  | 13 :: 10 :: rest => consistentCRLF rest
  | 10 :: _ => false
  | _ :: rest => consistentCRLF rest

theorem consistentCRLF_cons_ten (rest : Bytes) :
    consistentCRLF (10 :: rest) = false := rfl

theorem consistentCRLF_crlf (rest : Bytes) :
    consistentCRLF (13 :: 10 :: rest) = consistentCRLF rest := rfl

theorem consistentCRLF_cons {c : Nat} (rest : Bytes)
    (h10 : c ≠ 10) (h13 : c ≠ 13) :
    consistentCRLF (c :: rest) = consistentCRLF rest := by
  rw [consistentCRLF.eq_def]
  split
  · simp_all
  · rename_i heq
    rw [List.cons.injEq] at heq
    exact absurd heq.1 h13
  · rename_i heq
    rw [List.cons.injEq] at heq
    exact absurd heq.1 h10
  · rename_i hne10 heq
    rw [List.cons.injEq] at heq
    rw [← heq.2]

theorem consistentCRLF_cr_cons {c2 : Nat} (rest2 : Bytes) (h : c2 ≠ 10) :
    consistentCRLF (13 :: c2 :: rest2) = consistentCRLF (c2 :: rest2) := by
  rw [consistentCRLF.eq_def]
  split
  · simp_all
  · rename_i heq
    rw [List.cons.injEq, List.cons.injEq] at heq
    exact absurd heq.2.1 h
  · rename_i heq
    rw [List.cons.injEq] at heq
    omega
  · rename_i hne10 heq
    rw [List.cons.injEq] at heq
    rw [← heq.2]

theorem replLF_cons_ten (rep s : Bytes) :
    bytesReplace (10 :: s) LF rep = rep ++ bytesReplace s LF rep := by
  have h := @bytesReplace_cons_pos LF 10 s rep
    (by simp [LF]) (by simp [LF, List.isPrefixOf])
  simpa [LF] using h

theorem replLF_cons {c : Nat} (rep s : Bytes) (h : c ≠ 10) :
    bytesReplace (c :: s) LF rep = c :: bytesReplace s LF rep := by
  refine bytesReplace_cons_neg rep ?_
  simp [LF, List.isPrefixOf]
  omega

theorem replCRLF_cons2 (rep s : Bytes) :
    bytesReplace (13 :: 10 :: s) CRLF rep = rep ++ bytesReplace s CRLF rep := by
  have h := @bytesReplace_cons_pos CRLF 13 (10 :: s) rep
    (by simp [CRLF]) (by simp [CRLF, List.isPrefixOf])
  simpa [CRLF] using h

theorem crlf_not_isPrefixOf {c : Nat} (s : Bytes) (h : c ≠ 13) :
    CRLF.isPrefixOf (c :: s) = false := by
  simp [CRLF, List.isPrefixOf]
  omega

theorem crlf_not_isPrefixOf_two {c2 : Nat} (s : Bytes) (h : c2 ≠ 10) :
    CRLF.isPrefixOf (13 :: c2 :: s) = false := by
  simp [CRLF, List.isPrefixOf]
  omega

theorem replCRLF_cons {c : Nat} (rep s : Bytes)
    (h : CRLF.isPrefixOf (c :: s) = false) :
    bytesReplace (c :: s) CRLF rep = c :: bytesReplace s CRLF rep :=
  bytesReplace_cons_neg rep h

/-- Core of the newline round trip for CRLF files: on content whose line
endings are consistently `b"\r\n"`, collapsing `b"\r\n"` to `b"\n"` (as
`read_file` does) and then re-expanding `b"\n"` to `b"\r\n"` (as `write_file`
does) restores the original bytes. -/
theorem crlf_roundtrip (raw : Bytes) (h : consistentCRLF raw = true) :
    bytesReplace (bytesReplace raw CRLF LF) LF CRLF = raw := by
  suffices hs : ∀ (n : Nat) (s : Bytes), s.length ≤ n → consistentCRLF s = true →
      bytesReplace (bytesReplace s CRLF LF) LF CRLF = s by
    exact hs raw.length raw (le_refl _) h
  intro n
  induction n with
  | zero =>
    intro s hlen _
    have : s = [] := by
      cases s with
      | nil => rfl
      | cons c rest => simp at hlen
    subst this
    rfl
  | succ n ih =>
    intro s hlen hcons
    cases s with
    | nil => rfl
    | cons c rest =>
      by_cases hc10 : c = 10
      · subst hc10
        rw [consistentCRLF_cons_ten] at hcons
        exact absurd hcons (by simp)
      by_cases hc13 : c = 13
      · subst hc13
        cases rest with
        | nil => decide
        | cons c2 rest2 =>
          by_cases hc2 : c2 = 10
          · subst hc2
            rw [consistentCRLF_crlf] at hcons
            rw [replCRLF_cons2]
            show bytesReplace (10 :: bytesReplace rest2 CRLF LF) LF CRLF = _
            rw [replLF_cons_ten]
            show 13 :: 10 :: bytesReplace (bytesReplace rest2 CRLF LF) LF CRLF = _
            have hlen2 : rest2.length ≤ n := by
              simp only [List.length_cons] at hlen
              omega
            rw [ih rest2 hlen2 hcons]
          · rw [consistentCRLF_cr_cons rest2 hc2] at hcons
            rw [replCRLF_cons LF (c2 :: rest2)
              (crlf_not_isPrefixOf_two rest2 hc2)]
            rw [replLF_cons CRLF _ (by omega)]
            have hlen2 : (c2 :: rest2).length ≤ n := by
              simp only [List.length_cons] at hlen ⊢
              omega
            rw [ih (c2 :: rest2) hlen2 hcons]
      · rw [consistentCRLF_cons rest hc10 hc13] at hcons
        rw [replCRLF_cons LF rest (crlf_not_isPrefixOf rest hc13)]
        rw [replLF_cons CRLF _ hc10]
        have hlen2 : rest.length ≤ n := by
          simp only [List.length_cons] at hlen
          omega
        rw [ih rest hlen2 hcons]

/-- Re-expanding `b"\n"` to `b"\r\n"` leaves no bare line feeds: every
`b"\n"` in the output is part of a `b"\r\n"` pair (and the output never
starts with a bare `b"\n"`). -/
theorem consistentCRLF_expand (s : Bytes) :
    consistentCRLF (bytesReplace s LF CRLF) = true ∧
      (bytesReplace s LF CRLF).head? ≠ some 10 := by
  suffices hs : ∀ (n : Nat) (s : Bytes), s.length ≤ n →
      consistentCRLF (bytesReplace s LF CRLF) = true ∧
        (bytesReplace s LF CRLF).head? ≠ some 10 by
    exact hs s.length s (le_refl _)
  intro n
  induction n with
  | zero =>
    intro s hlen
    have : s = [] := by
      cases s with
      | nil => rfl
      | cons c rest => simp at hlen
    subst this
    exact ⟨rfl, by simp [bytesReplace_nil]⟩
  | succ n ih =>
    intro s hlen
    cases s with
    | nil => exact ⟨rfl, by simp [bytesReplace_nil]⟩
    | cons c rest =>
      have hlen2 : rest.length ≤ n := by
        simp only [List.length_cons] at hlen
        omega
      obtain ⟨ih1, ih2⟩ := ih rest hlen2
      by_cases hc10 : c = 10
      · subst hc10
        rw [replLF_cons_ten]
        show consistentCRLF (13 :: 10 :: bytesReplace rest LF CRLF) = true ∧
          (13 :: 10 :: bytesReplace rest LF CRLF).head? ≠ some 10
        rw [consistentCRLF_crlf]
        exact ⟨ih1, by simp⟩
      · rw [replLF_cons CRLF rest hc10]
        refine ⟨?_, by simp [hc10]⟩
        by_cases hc13 : c = 13
        · subst hc13
          cases hout : bytesReplace rest LF CRLF with
          | nil => decide
          | cons d tail =>
            have hd : d ≠ 10 := by
              rw [hout] at ih2
              simp at ih2
              omega
            rw [hout] at ih1
            rw [consistentCRLF_cr_cons tail hd]
            exact ih1
        · rw [consistentCRLF_cons _ hc10 hc13]
          exact ih1

/-!
Embedding of `ufmt/types.py`.
-/

/-- A Python exception value, identified by its message.  Concrete exception
classes (`ValueError`, `OSError`, µsort errors, …) are not distinguished by
any of the verified properties, only exception identity. -/
inductive Exc where
  | mk (message : String)
deriving DecidableEq, Repr

/-- The type of `Result.skipped`, Python `Union[bool, str]`: `False` (not
skipped), `True` (skipped without a reason) or a nonempty reason string. -/
inductive SkipVal where
  | bool (b : Bool)
  | str (s : String)
deriving DecidableEq, Repr

/-- The `Result` dataclass from `ufmt/types.py`, with its field defaults. -/
structure Result where
  path : Path
  changed : Bool := false
  written : Bool := false
  skipped : SkipVal := SkipVal.bool false
  diff : Option String := none
  error : Option Exc := none
  before : Bytes := []
  after : Bytes := []
deriving DecidableEq, Repr

/-- The `Sorter` enum from `ufmt/types.py`. -/
inductive Sorter where
  | skip
  | usort
  | ruff_api
deriving DecidableEq, Repr

/-- The `Formatter` enum from `ufmt/types.py`. -/
inductive Formatter where
  | black
  | ruff_api
deriving DecidableEq, Repr

/-- The slice of black's `Mode` (aliased `BlackConfig` in `ufmt/types.py`)
that the core logic manipulates: `ufmt_bytes` replaces `is_pyi` for `.pyi`
paths; every other field is only passed through to the external backend. -/
structure BlackConfig where
  is_pyi : Bool := false
deriving DecidableEq, Repr

/-- An exceptional escape from the `ufmt_bytes` pipeline: either the
`SkipFormatting` control exception from `ufmt/types.py` (carrying its
message, possibly empty) or an ordinary exception. -/
inductive PipeExc where
  | skipfmt (msg : String)
  | exc (e : Exc)
deriving DecidableEq, Repr

/-- A pre- or post-processor (the `Processor` protocol from `ufmt/types.py`):
called with path, content and encoding; returns replacement content, or
raises `SkipFormatting` or any other exception. -/
abbrev Processor := Path → Bytes → Encoding → Except PipeExc Bytes

/-!
Embedding of `ufmt_bytes` from `ufmt/core.py`.
-/

/-- The external callables `ufmt_bytes` can invoke, recorded in the order
they run.  `Stage.pre` and `Stage.post` are the caller-supplied processors;
`Stage.sorter` is the import-sorting backend (µsort or ruff);
`Stage.formatter` is the formatting backend (black or ruff). -/
inductive Stage where
  | pre
  | sorter
  | formatter
  | post
deriving DecidableEq, Repr

/-- The outcome of `black.format_file_contents`: reformatted text, the
`black.report.NothingChanged` signal (caught by `ufmt_bytes` and treated as
success with no change), or any other exception. -/
inductive BlackOutcome where
  | formatted (out : Bytes)
  | nothingChanged
  | failed (e : Exc)

/-- The external transformation backends available to `ufmt_bytes`, together
with the backend selection from `UfmtConfig` (`ufmt_config.sorter` and
`ufmt_config.formatter`).  The backend functions model, respectively:
`usort(content, usort_config, path)` (whose `error` field is re-raised by
`ufmt_bytes`), `ruff_api.isort_string` with the µsort-matched options,
`black.format_file_contents(…, mode=black_config)` and
`ruff_api.format_string`.  Text decoding/encoding through the file's codec
surrounds the formatter call in the source and is folded into the backend
functions, which therefore take the encoding as an argument. -/
structure PipeEnv where
  sorter : Sorter := Sorter.usort
  formatter : Formatter := Formatter.black
  usort_fn : Path → Bytes → Except Exc Bytes
  ruff_sort_fn : Path → Encoding → Bytes → Except Exc Bytes
  black_fn : BlackConfig → Encoding → Bytes → BlackOutcome
  ruff_fmt_fn : BlackConfig → Encoding → Bytes → Except Exc Bytes

/-- The "run configured sorter" section of `ufmt_bytes`: dispatch on
`ufmt_config.sorter`.  µsort's result carries an optional error which
`ufmt_bytes` re-raises (`if result.error: raise result.error`); the ruff
branch may raise from `ruff_api.isort_string`; the `skip` value runs nothing.
(The `ValueError` branch for a value outside the enum is unreachable here
because `Sorter` is a closed enumeration.) -/
def run_sorter (env : PipeEnv) (path : Path) (encoding : Encoding)
    (c : Bytes) : Except PipeExc Bytes :=
  match env.sorter with
  | Sorter.usort =>
    match env.usort_fn path c with
    | Except.ok out => Except.ok out
    | Except.error e => Except.error (PipeExc.exc e)
  | Sorter.ruff_api =>
    match env.ruff_sort_fn path encoding c with
    | Except.ok out => Except.ok out
    | Except.error e => Except.error (PipeExc.exc e)
  | Sorter.skip => Except.ok c

/-- The sorter-backend invocations the sorter section performs: none when the
configured sorter is `skip`, one otherwise. -/
def sorter_stage (env : PipeEnv) : List Stage :=
  match env.sorter with
  | Sorter.skip => []
  | _ => [Stage.sorter]

/-- The "run configured formatter" section of `ufmt_bytes`: dispatch on
`ufmt_config.formatter` with the (possibly `.pyi`-adjusted) black config.
Black's `NothingChanged` report is caught and treated as success with
unchanged content; any other exception propagates.  Both enum values invoke a
backend.  (The `ValueError` branch for a value outside the enum is
unreachable here because `Formatter` is a closed enumeration.) -/
def run_formatter (env : PipeEnv) (encoding : Encoding)
    (black_config : BlackConfig) (c : Bytes) : Except PipeExc Bytes :=
  match env.formatter with
  | Formatter.black =>
    match env.black_fn black_config encoding c with
    | BlackOutcome.formatted out => Except.ok out
    | BlackOutcome.nothingChanged => Except.ok c
    | BlackOutcome.failed e => Except.error (PipeExc.exc e)
  | Formatter.ruff_api =>
    match env.ruff_fmt_fn black_config encoding c with
    | Except.ok out => Except.ok out
    | Except.error e => Except.error (PipeExc.exc e)

/-- `ufmt_bytes(path, content, encoding=…, black_config=…, …)` from
`ufmt/core.py`: run the optional pre-processor, then the configured sorter,
then the configured formatter (with `is_pyi` forced for `.pyi` paths), then
the optional post-processor.  Any `SkipFormatting` or other exception raised
by a stage aborts the pipeline at that stage and propagates to the caller.
The second component records which external stages were invoked, in order. -/
def ufmt_bytes (env : PipeEnv) (path : Path) (content : Bytes)
    (encoding : Encoding) (black_config : BlackConfig)
    (pre_processor post_processor : Option Processor) :
    Except PipeExc Bytes × List Stage :=
  let step0 : Except PipeExc Bytes × List Stage :=
    match pre_processor with
    | none => (Except.ok content, [])
    | some p => (p path content encoding, [Stage.pre])
  match step0 with
  | (Except.error e, tr) => (Except.error e, tr)
  | (Except.ok c1, tr0) =>
    match run_sorter env path encoding c1 with
    | Except.error e => (Except.error e, tr0 ++ sorter_stage env)
    | Except.ok c2 =>
      let bc := if path.endsWith ".pyi" then { black_config with is_pyi := true }
        else black_config
      match run_formatter env encoding bc c2 with
      | Except.error e =>
        (Except.error e, tr0 ++ sorter_stage env ++ [Stage.formatter])
      | Except.ok c3 =>
        match post_processor with
        | none => (Except.ok c3, tr0 ++ sorter_stage env ++ [Stage.formatter])
        | some q =>
          (q path c3 encoding,
           tr0 ++ sorter_stage env ++ [Stage.formatter, Stage.post])

/-!
Embedding of `ufmt_file` from `ufmt/core.py`.
-/

/-- The outcomes of the external steps a single `ufmt_file(path)` call
performs, in program order:

* `configResult` — the configuration resolution `load_config(path, root)`,
  `make_black_config(path)` and `UsortConfig.find(path)` (or the injected
  factories).  These run *before* the `try` block.
* `readResult` — `read_file(path)`: content bytes, detected encoding and
  newline style, or a raised exception.
* `pipeline` — `ufmt_bytes(path, src_contents, encoding=…, …)` on the read
  content; instantiate with `Ufmt.ufmt_bytes` applied to a `PipeEnv`.
* `writeResult` — `write_file(path, dst_contents, newline=newline)`: unit on
  success or a raised exception.
* `mkdiff` — `unified_diff(src_result.decode(encoding),
  dst_result.decode(encoding), path.as_posix())`, the external diff routine
  over the decoded, newline re-expanded snapshots.  This step runs *after*
  the `try` block and can raise — `bytes.decode` fails with
  `UnicodeDecodeError` when a pre/post-processor produced bytes that are
  invalid in the detected encoding — so its outcome is an `Except` and a
  failure propagates out of `ufmt_file`. -/
structure FileEnv where
  configResult : Except Exc Unit
  readResult : Except Exc (Bytes × Encoding × Bytes)
  pipeline : Bytes → Encoding → Except PipeExc Bytes
  writeResult : Bytes → Bytes → Except Exc Unit
  mkdiff : Bytes → Bytes → Except Exc String

/-- `str(e) or True` on a caught `SkipFormatting` exception: the value stored
on `Result.skipped` — the skip message when nonempty, else `True`. -/
def skippedValue (msg : String) : SkipVal :=
  if msg = "" then SkipVal.bool true else SkipVal.str msg

/-- What one `ufmt_file` call produces: the `Result` object handed back to
the caller, and whether `write_file` was invoked at all (the only on-disk
mutation the call can make). -/
structure FileOutcome where
  result : Result
  writeCalled : Bool
deriving DecidableEq, Repr

/-- `ufmt_file(path, dry_run=…, diff=…, return_content=…)` from
`ufmt/core.py`.  Configuration resolution runs before the `try` block, so an
exception there propagates to the caller (the `Except.error` case).  Inside
the `try`: a read failure or a pipeline exception is caught and recorded on
`Result.error`; a `SkipFormatting` escape sets `Result.skipped` to the
exception message, or `True` when the message is empty (`str(e) or True`);
on normal completion the before/after snapshots are captured when
`return_content` is set, and if the transformed bytes differ from the
original, `changed` is set, a diff is attached when `diff` is set, and —
unless `dry_run` — the file is written, recording `written=True` on success
or the exception on `Result.error` on failure.  The snapshot/diff section
also runs outside the `try` block: an exception from the decode/diff step
(see `FileEnv.mkdiff`) propagates to the caller, like a configuration
error. -/
def ufmt_file (env : FileEnv) (path : Path)
    (dry_run diff return_content : Bool) : Except Exc FileOutcome :=
  match env.configResult with
  | Except.error e => Except.error e
  | Except.ok _ =>
    match env.readResult with
    | Except.error e =>
      Except.ok ⟨{ path := path, error := some e }, false⟩
    | Except.ok (src_contents, encoding, newline) =>
      match env.pipeline src_contents encoding with
      | Except.error (PipeExc.skipfmt msg) =>
        Except.ok ⟨{ path := path, skipped := skippedValue msg }, false⟩
      | Except.error (PipeExc.exc e) =>
        Except.ok ⟨{ path := path, error := some e }, false⟩
      | Except.ok dst_contents =>
        let src_result := normalize_result src_contents newline
        let dst_result := normalize_result dst_contents newline
        let r0 : Result := { path := path }
        let r1 := if return_content then
            { r0 with before := src_result, after := dst_result }
          else r0
        if src_contents ≠ dst_contents then
          let r2 := { r1 with changed := true }
          match (if diff then
              match env.mkdiff src_result dst_result with
              | Except.ok d => Except.ok (some d)
              | Except.error e => Except.error e
            else Except.ok none : Except Exc (Option String)) with
          | Except.error e => Except.error e
          | Except.ok dopt =>
            let r3 := { r2 with diff := dopt }
            if ¬ dry_run then
              match env.writeResult dst_contents newline with
              | Except.ok _ => Except.ok ⟨{ r3 with written := true }, true⟩
              | Except.error e =>
                Except.ok ⟨{ r3 with error := some e }, true⟩
            else
              Except.ok ⟨r3, false⟩
        else
          Except.ok ⟨r1, false⟩

/-- A batch of independent `ufmt_file` calls, one per file, as dispatched by
`ufmt_paths` (directly or through the trailrunner pool): each file is
processed by its own `ufmt_file` invocation on its own effect outcomes. -/
def ufmt_batch (tasks : List (FileEnv × Path))
    (dry_run diff return_content : Bool) : List (Except Exc FileOutcome) :=
  tasks.map (fun t => ufmt_file t.1 t.2 dry_run diff return_content)

/-!
Embedding of `ufmt_paths` from `ufmt/core.py` (path routing and dispatch).
-/

/-- `generate_paths` from inside `ufmt_paths`: yield the files to format for
each given path, in order.  A `STDIN` sentinel appearing here (it can only be
a non-first element, since `ufmt_paths` short-circuits when `paths[0]` is the
sentinel) is skipped with a logged warning ("Cannot mix stdin ('-') with
normal paths, ignoring").  Every other path is expanded by the external
`trailrunner.walk` honoring the excludes of the configuration resolved for
that path, modelled by the `walk` parameter. -/
def generate_paths (walk : Path → List Path) : List Path → List Path
  | [] => []
  | p :: rest => (if p = STDIN then [] else walk p) ++ generate_paths walk rest

/-- The number of "Cannot mix stdin ('-') with normal paths, ignoring"
warnings `generate_paths` logs: one per sentinel entry it skips. -/
def stdin_warnings (paths : List Path) : Nat :=
  (paths.filter (fun p => p = STDIN)).length

/-- The routing decision `ufmt_paths` makes before any file is formatted. -/
inductive PathsOutcome where
  | empty
  | stdinMode (display : Path)
  | tooManyStdin
  | single (p : Path)
  | pool (ps : List Path)
deriving DecidableEq, Repr

/-- The generator pump at the end of `ufmt_paths`: pull the first item (none
⇒ nothing to do), pull the second (none ⇒ format the single path in the
calling process, skipping multiprocessing), otherwise chain the first, second
and remaining paths and hand them all to the trailrunner pool. -/
def pump_dispatch : List Path → PathsOutcome
  | [] => PathsOutcome.empty
  | [p] => PathsOutcome.single p
  | p1 :: p2 :: gen => PathsOutcome.pool (p1 :: p2 :: gen)

/-- The control flow of `ufmt_paths(paths, …)`: empty input yields nothing;
if the first path is the `STDIN` sentinel, more than one following path
raises `ValueError("too many stdin paths")`, exactly one following path is
used as the display name, and none means the display name `Path("stdin")`;
otherwise the discovered paths from `generate_paths` are pumped and
dispatched. -/
def ufmt_paths_route (walk : Path → List Path) (paths : List Path) :
    PathsOutcome :=
  match paths with
  | [] => PathsOutcome.empty
  | p0 :: rest =>
    if p0 = STDIN then
      if paths.length > 2 then PathsOutcome.tooManyStdin
      else match rest with
        | [p1] => PathsOutcome.stdinMode p1
        | _ => PathsOutcome.stdinMode "stdin"
    else
      pump_dispatch (generate_paths walk paths)

/-- The results `ufmt_paths` yields, given the per-file formatter
`fn = partial(ufmt_file, …)` and the stdin formatter `ufmt_stdin`.  The
`tooManyStdin` branch raises; the pool branch submits every discovered path
to the external trailrunner pool, which eventually delivers exactly one
result per submitted path (the completion order across workers is outside
this model). -/
def ufmt_paths_results (walk : Path → List Path) (fn : Path → Result)
    (stdin_fn : Path → Result) (paths : List Path) :
    Except Exc (List Result) :=
  match ufmt_paths_route walk paths with
  | PathsOutcome.empty => Except.ok []
  | PathsOutcome.stdinMode display => Except.ok [stdin_fn display]
  | PathsOutcome.tooManyStdin => Except.error (Exc.mk "too many stdin paths")
  | PathsOutcome.single p => Except.ok [fn p]
  | PathsOutcome.pool ps => Except.ok (ps.map fn)

/-!
Concrete fixtures used when evaluating the embedded operations on explicit
inputs.
-/

/-- A backend fixture: sorting skipped by configuration, black reporting
`NothingChanged` on every input (so the pipeline with no processors is the
identity). -/
def idEnv : PipeEnv where
  sorter := Sorter.skip
  formatter := Formatter.black
  usort_fn := fun _ c => Except.ok c
  ruff_sort_fn := fun _ _ c => Except.ok c
  black_fn := fun _ _ _ => BlackOutcome.nothingChanged
  ruff_fmt_fn := fun _ _ c => Except.ok c

/-- Build a `FileEnv` whose configuration resolution succeeds, with the given
read, pipeline and write outcomes and a trivial diff routine. -/
def mkFileEnv (read : Except Exc (Bytes × Encoding × Bytes))
    (pipe : Bytes → Encoding → Except PipeExc Bytes)
    (write : Except Exc Unit) : FileEnv where
  configResult := Except.ok ()
  readResult := read
  pipeline := pipe
  writeResult := fun _ _ => write
  mkdiff := fun _ _ => Except.ok ""

/-!
Claim C3 — atomicity of `write_file`.
-/

/-- Claim C3 counterexample: writing `b"B\n"` over a file holding `b"A"`
steps through the disk states original `[65]`, truncated `[]`, partial
`[66]`, complete `[66, 10]`.  The truncated and partial states are observable
if a failure occurs during the write, and neither preserves the original
contents `[65]` nor equals the full expanded sequence `[66, 10]` — so
`write_file` is not all-or-nothing and does not leave the original intact on
failure. -/
theorem ufmt_C3_counterexample :
    write_file_states [65] [66, 10] LF = [[65], [], [66], [66, 10]] ∧
    ([] : Bytes) ≠ [65] ∧ ([66] : Bytes) ≠ [65] ∧
    ([66] : Bytes) ≠ [66, 10] := by
  decide

/-- Claim C3 (amended): `write_file` opens the file in truncating `"wb"` mode
and then writes the full expanded byte sequence with one `buf.write` call.
The first observable disk state is the original content and the final state
is exactly the expanded content, but every state after the truncating open is
only a prefix of the expanded content — the empty truncated state is always
among them — so a failure during the write can leave the file truncated or
partially written rather than leaving the original contents intact. -/
theorem ufmt_C3_truncate_then_write (disk content newline : Bytes) :
    (write_file_states disk content newline).head? = some disk ∧
    write_file content newline ∈ write_file_states disk content newline ∧
    [] ∈ (write_file_states disk content newline).tail ∧
    ((write_file_states disk content newline).tail.all
      (fun s => s.isPrefixOf (write_file content newline))) = true := by
  refine ⟨rfl, ?_, ?_, ?_⟩
  · apply List.mem_cons_of_mem
    apply List.mem_map.mpr
    exact ⟨(normalize_result content newline).length,
      List.self_mem_range_succ _, List.take_length _⟩
  · show [] ∈ (List.range ((normalize_result content newline).length + 1)).map
      (fun k => (normalize_result content newline).take k)
    apply List.mem_map.mpr
    exact ⟨0, List.mem_range.mpr (Nat.succ_pos _), rfl⟩
  · rw [List.all_eq_true]
    intro s hs
    show s.isPrefixOf (write_file content newline) = true
    simp only [write_file_states, List.tail_cons, List.mem_map,
      List.mem_range] at hs
    obtain ⟨k, _, hk⟩ := hs
    rw [← hk]
    exact List.isPrefixOf_iff_prefix.mpr (List.take_prefix _ _)

/-!
Claim C4 — newline round trip between `read_file` and `write_file`.
-/

/-- Claim C4 counterexample: the file `b"\r\n\n"` has mixed line endings; its
detected newline is `b"\r\n"`, reading normalizes it to `b"\n\n"`, and
writing that content straight back expands *both* line feeds, producing
`b"\r\n\r\n"` — not the original bytes.  The read/write round trip is not
byte-identical for every file. -/
theorem ufmt_C4_counterexample :
    read_file [13, 10, 10] = ([10, 10], CRLF) ∧
    write_file [10, 10] CRLF = [13, 10, 13, 10] ∧
    write_file (read_file [13, 10, 10]).1 (read_file [13, 10, 10]).2 ≠
      [13, 10, 10] := by
  decide

/-- Claim C4 (amended): `write(path, read(path).content, read(path).newline)`
reproduces the original file byte-for-byte whenever the file's line endings
are consistent — always when the detected newline is `b"\n"`, and for
detected `b"\r\n"` provided every `b"\n"` in the file is part of a `b"\r\n"`
pair (a mixed-ending file is instead re-normalized to the detected style).
Moreover, expanding output for a `b"\r\n"` file never leaves a bare `b"\n"`:
every line feed in the written bytes is immediately preceded by `b"\r"`. -/
theorem ufmt_C4_roundtrip :
    (∀ raw : Bytes, detectNewline raw = LF →
      write_file (read_file raw).1 (read_file raw).2 = raw) ∧
    (∀ raw : Bytes, consistentCRLF raw = true →
      write_file (read_file raw).1 (read_file raw).2 = raw) ∧
    (∀ content : Bytes, consistentCRLF (write_file content CRLF) = true) := by
  have hne : CRLF ≠ LF := by decide
  have h1 : ∀ raw : Bytes, detectNewline raw = LF →
      write_file (read_file raw).1 (read_file raw).2 = raw := by
    intro raw h
    unfold read_file
    rw [h]
    show write_file (bytesReplace raw LF LF) LF = raw
    rw [bytesReplace_self]
    unfold write_file normalize_result
    simp
  refine ⟨h1, ?_, ?_⟩
  · intro raw hcons
    by_cases hc : raw ≠ [] ∧ CRLF.isSuffixOf (firstLine raw)
    · have hnl : detectNewline raw = CRLF := by
        unfold detectNewline
        rw [if_pos hc]
      unfold read_file
      rw [hnl]
      show write_file (bytesReplace raw CRLF LF) CRLF = raw
      unfold write_file normalize_result
      rw [if_pos hne]
      exact crlf_roundtrip raw hcons
    · have hnl : detectNewline raw = LF := by
        unfold detectNewline
        rw [if_neg hc]
      exact h1 raw hnl
  · intro content
    unfold write_file normalize_result
    rw [if_pos hne]
    exact (consistentCRLF_expand content).1

/-- Claim C4 witness: the consistently CRLF-terminated file `b"h\r\n"` round
trips byte-for-byte through `read_file` and `write_file`. -/
theorem ufmt_C4_roundtrip_witness :
    consistentCRLF [104, 13, 10] = true ∧
    write_file (read_file [104, 13, 10]).1 (read_file [104, 13, 10]).2 =
      [104, 13, 10] :=
  ⟨by decide, ufmt_C4_roundtrip.2.1 [104, 13, 10] (by decide)⟩

/-!
Claim C7 — idempotence of the transformation pipeline.
-/

/-- With no processors, `ufmt_bytes` is exactly the configured sorter
followed by the configured formatter (on the `.pyi`-adjusted config). -/
theorem ufmt_bytes_no_procs (env : PipeEnv) (path : Path) (c : Bytes)
    (enc : Encoding) (bc : BlackConfig) :
    (ufmt_bytes env path c enc bc none none).1 =
      match run_sorter env path enc c with
      | Except.error e => Except.error e
      | Except.ok c2 =>
        run_formatter env enc
          (if path.endsWith ".pyi" then { bc with is_pyi := true } else bc)
          c2 := by
  unfold ufmt_bytes
  cases hs : run_sorter env path enc c with
  | error e => simp [hs]
  | ok c2 =>
    cases hf : run_formatter env enc
        (if path.endsWith ".pyi" then { bc with is_pyi := true } else bc) c2 with
    | error e => simp [hs, hf]
    | ok c3 => simp [hs, hf]

/-- A post-processor runs on the output of the rest of the pipeline: when the
pipeline without a post-processor completes normally with `mid`, the pipeline
with post-processor `q` produces whatever `q` returns (or raises) on `mid`,
with the post stage appended to the invocation record. -/
theorem ufmt_bytes_post_comp (env : PipeEnv) (path : Path) (c : Bytes)
    (enc : Encoding) (bc : BlackConfig) (pre : Option Processor)
    (q : Processor) (mid : Bytes) (tr : List Stage)
    (h : ufmt_bytes env path c enc bc pre none = (Except.ok mid, tr)) :
    ufmt_bytes env path c enc bc pre (some q) =
      (q path mid enc, tr ++ [Stage.post]) := by
  unfold ufmt_bytes at h ⊢
  cases pre with
  | none =>
    cases hs : run_sorter env path enc c with
    | error e => simp [hs] at h
    | ok c2 =>
      cases hf : run_formatter env enc
          (if path.endsWith ".pyi" then { bc with is_pyi := true } else bc)
          c2 with
      | error e => simp [hs, hf] at h
      | ok c3 =>
        simp only [hs, hf] at h ⊢
        obtain ⟨h1, h2⟩ := Prod.mk.injEq .. ▸ h
        cases h1
        rw [← h2]
        simp
  | some p =>
    cases hp : p path c enc with
    | error e =>
      simp only [hp] at h ⊢
      exact absurd h (by simp)
    | ok c1 =>
      simp only [hp] at h ⊢
      cases hs : run_sorter env path enc c1 with
      | error e => simp [hs] at h
      | ok c2 =>
        cases hf : run_formatter env enc
            (if path.endsWith ".pyi" then { bc with is_pyi := true } else bc)
            c2 with
        | error e => simp [hs, hf] at h
        | ok c3 =>
          simp only [hs, hf] at h ⊢
          obtain ⟨h1, h2⟩ := Prod.mk.injEq .. ▸ h
          cases h1
          rw [← h2]
          simp

/-- Claim C7 counterexample: `ufmt_bytes` is not idempotent for every
configuration.  With the identity backends and a post-processor that appends
a byte (post-processors are part of `ufmt_bytes`'s interface), one pass over
`b""` yields `b"!"`, but a second pass over that output yields `b"!!"` — the
second pass changes the content again. -/
theorem ufmt_C7_counterexample :
    (ufmt_bytes idEnv "a.py" [] "utf-8" ⟨false⟩ none
      (some (fun _ c _ => Except.ok (c ++ [33])))).1 = Except.ok [33] ∧
    (ufmt_bytes idEnv "a.py" [33] "utf-8" ⟨false⟩ none
      (some (fun _ c _ => Except.ok (c ++ [33])))).1 = Except.ok [33, 33] ∧
    ([33, 33] : Bytes) ≠ [33] := by
  refine ⟨rfl, rfl, by decide⟩

/-- Claim C7 (amended): `ufmt_bytes` with no pre- or post-processors is
idempotent provided the configured backends are mutually stable — the
formatter's successful output is a fixed point of both the sorter stage and
the formatter stage.  (With arbitrary pre/post processors, or backends
without this property, a second pass can produce further change.) -/
theorem ufmt_C7_idempotent (env : PipeEnv) (path : Path) (enc : Encoding)
    (bc : BlackConfig) (c out : Bytes)
    (hsf : ∀ (bcx : BlackConfig) (b r : Bytes),
      run_formatter env enc bcx b = Except.ok r →
      run_sorter env path enc r = Except.ok r)
    (hff : ∀ (bcx : BlackConfig) (b r : Bytes),
      run_formatter env enc bcx b = Except.ok r →
      run_formatter env enc bcx r = Except.ok r)
    (h : (ufmt_bytes env path c enc bc none none).1 = Except.ok out) :
    (ufmt_bytes env path out enc bc none none).1 = Except.ok out := by
  rw [ufmt_bytes_no_procs] at h ⊢
  cases hs : run_sorter env path enc c with
  | error e => rw [hs] at h; exact absurd h (by simp)
  | ok c2 =>
    rw [hs] at h
    rw [hsf _ _ _ h]
    exact hff _ _ _ h

/-- Claim C7 witness: with sorting skipped and black reporting
`NothingChanged`, the pipeline maps `b"a"` to itself, and a second pass
returns the same output. -/
theorem ufmt_C7_idempotent_witness :
    (ufmt_bytes idEnv "a.py" [97] "utf-8" ⟨false⟩ none none).1 =
      Except.ok [97] :=
  ufmt_C7_idempotent idEnv "a.py" "utf-8" ⟨false⟩ [97] [97]
    (fun _ _ _ _ => rfl) (fun _ _ _ _ => rfl) rfl

/-!
Claim C2 — skip precedence for pre- and post-processors.
-/

/-- Claim C2: (1) if the pre-processor raises `SkipFormatting`, `ufmt_bytes`
aborts with that skip before any sorter or formatter backend is invoked: the
stage record is exactly `[pre]`, containing neither the sorter nor the
formatter stage; (2) if the stages before the post-processor complete
normally and the post-processor raises `SkipFormatting`, then `ufmt_file`
returns a `Result` whose `skipped` is the reason string (or `True` when the
message is empty) with every other field at its default — `changed` and
`written` false, no before/after snapshots — and `write_file` is never
invoked, so the on-disk file is unchanged and the original content, not the
partially transformed bytes, stands as the final content. -/
theorem ufmt_C2_skip_precedence :
    (∀ (env : PipeEnv) (path : Path) (c : Bytes) (enc : Encoding)
        (bc : BlackConfig) (p : Processor) (post : Option Processor)
        (m : String),
      p path c enc = Except.error (PipeExc.skipfmt m) →
      ufmt_bytes env path c enc bc (some p) post =
        (Except.error (PipeExc.skipfmt m), [Stage.pre]) ∧
      Stage.sorter ∉ (ufmt_bytes env path c enc bc (some p) post).2 ∧
      Stage.formatter ∉ (ufmt_bytes env path c enc bc (some p) post).2) ∧
    (∀ (env : PipeEnv) (path : Path) (c : Bytes) (enc : Encoding)
        (bc : BlackConfig) (pre : Option Processor) (q : Processor)
        (m : String) (mid : Bytes) (tr : List Stage)
        (wr : Bytes → Bytes → Except Exc Unit)
        (md : Bytes → Bytes → Except Exc String)
        (nl : Bytes) (dr df rc : Bool),
      ufmt_bytes env path c enc bc pre none = (Except.ok mid, tr) →
      q path mid enc = Except.error (PipeExc.skipfmt m) →
      ufmt_file ⟨Except.ok (), Except.ok (c, enc, nl),
          fun c2 e2 => (ufmt_bytes env path c2 e2 bc pre (some q)).1, wr, md⟩
          path dr df rc =
        Except.ok ⟨{ path := path, skipped := skippedValue m }, false⟩) := by
  constructor
  · intro env path c enc bc p post m h
    have heq : ufmt_bytes env path c enc bc (some p) post =
        (Except.error (PipeExc.skipfmt m), [Stage.pre]) := by
      unfold ufmt_bytes
      simp [h]
    refine ⟨heq, ?_, ?_⟩ <;> rw [heq] <;> simp
  · intro env path c enc bc pre q m mid tr wr md nl dr df rc h1 h2
    have hpipe : (ufmt_bytes env path c enc bc pre (some q)).1 =
        Except.error (PipeExc.skipfmt m) := by
      rw [ufmt_bytes_post_comp env path c enc bc pre q mid tr h1]
      exact h2
    unfold ufmt_file
    simp only []
    rw [hpipe]

/-- Claim C2 witness: a pre-processor that skips with reason "skip me" stops
the pipeline at the pre stage, and a post-processor that skips with an empty
message makes `ufmt_file` return a `Result` with `skipped = True` and no
write. -/
theorem ufmt_C2_skip_precedence_witness :
    ufmt_bytes idEnv "a.py" [97] "utf-8" ⟨false⟩
        (some (fun _ _ _ => Except.error (PipeExc.skipfmt "skip me"))) none =
      (Except.error (PipeExc.skipfmt "skip me"), [Stage.pre]) ∧
    ufmt_file ⟨Except.ok (), Except.ok ([97], "utf-8", LF),
        fun c2 e2 => (ufmt_bytes idEnv "a.py" c2 e2 ⟨false⟩ none
          (some (fun _ _ _ => Except.error (PipeExc.skipfmt "")))).1,
        fun _ _ => Except.ok (), fun _ _ => Except.ok ""⟩
        "a.py" false false true =
      Except.ok ⟨{ path := "a.py", skipped := skippedValue "" }, false⟩ :=
  ⟨(ufmt_C2_skip_precedence.1 idEnv "a.py" [97] "utf-8" ⟨false⟩
      (fun _ _ _ => Except.error (PipeExc.skipfmt "skip me")) none
      "skip me" rfl).1,
   ufmt_C2_skip_precedence.2 idEnv "a.py" [97] "utf-8" ⟨false⟩ none
      (fun _ _ _ => Except.error (PipeExc.skipfmt "")) "" [97]
      [Stage.formatter] (fun _ _ => Except.ok ()) (fun _ _ => Except.ok "")
      LF false false true rfl rfl⟩

/-!
Claims C8 and C9 — stdin sentinel handling and dispatch in `ufmt_paths`.
-/

/-- Dropping the `STDIN` sentinel entries from the path list does not change
the discovered files: `generate_paths` skips them. -/
theorem generate_paths_filter (walk : Path → List Path) (paths : List Path) :
    generate_paths walk (paths.filter (fun p => p != STDIN)) =
      generate_paths walk paths := by
  induction paths with
  | nil => rfl
  | cons p rest ih =>
    by_cases hp : p = STDIN
    · subst hp
      simp only [List.filter_cons, bne_self_eq_false, Bool.false_eq_true,
        if_false, ih, generate_paths]
      simp [ih]
    · have hb : (p != STDIN) = true := by simp [hp]
      simp only [List.filter_cons, hb, if_true, generate_paths, ih]

/-- Claim C8: when the stdin sentinel `Path("-")` is the first path, two or
more further paths raise `ValueError("too many stdin paths")`; exactly one
further path is used as the display name handed to the stdin formatter; no
further path means the display name `Path("stdin")`.  When the first path is
not the sentinel, later sentinel entries are ignored — the run produces the
same results as without them, never fails on their account, and logs one
warning per ignored sentinel. -/
theorem ufmt_C8_stdin_routing :
    (∀ (walk : Path → List Path) (fn stdin_fn : Path → Result) (p1 p2 : Path)
        (rest : List Path),
      ufmt_paths_results walk fn stdin_fn (STDIN :: p1 :: p2 :: rest) =
        Except.error (Exc.mk "too many stdin paths")) ∧
    (∀ (walk : Path → List Path) (fn stdin_fn : Path → Result) (p1 : Path),
      ufmt_paths_results walk fn stdin_fn [STDIN, p1] =
        Except.ok [stdin_fn p1]) ∧
    (∀ (walk : Path → List Path) (fn stdin_fn : Path → Result),
      ufmt_paths_results walk fn stdin_fn [STDIN] =
        Except.ok [stdin_fn "stdin"]) ∧
    (∀ (walk : Path → List Path) (fn stdin_fn : Path → Result) (p0 : Path)
        (rest : List Path), p0 ≠ STDIN →
      ufmt_paths_results walk fn stdin_fn (p0 :: rest) =
        ufmt_paths_results walk fn stdin_fn
          (p0 :: rest.filter (fun p => p != STDIN)) ∧
      (ufmt_paths_results walk fn stdin_fn (p0 :: rest)).toOption ≠ none ∧
      (STDIN ∈ rest → 1 ≤ stdin_warnings (p0 :: rest))) := by
  refine ⟨?_, ?_, ?_, ?_⟩
  · intro walk fn stdin_fn p1 p2 rest
    have hlen : (STDIN :: p1 :: p2 :: rest).length > 2 := by
      simp only [List.length_cons]
      omega
    simp only [ufmt_paths_results, ufmt_paths_route]
    simp [hlen]
  · intro walk fn stdin_fn p1
    rfl
  · intro walk fn stdin_fn
    rfl
  · intro walk fn stdin_fn p0 rest h
    have hgen : generate_paths walk (p0 :: rest.filter (fun p => p != STDIN)) =
        generate_paths walk (p0 :: rest) := by
      show (if p0 = STDIN then [] else walk p0) ++
          generate_paths walk (rest.filter (fun p => p != STDIN)) = _
      rw [generate_paths_filter]
      rfl
    refine ⟨?_, ?_, ?_⟩
    · simp only [ufmt_paths_results, ufmt_paths_route]
      rw [if_neg h, if_neg h, hgen]
    · simp only [ufmt_paths_results, ufmt_paths_route]
      rw [if_neg h]
      rcases hg : generate_paths walk (p0 :: rest) with _ | ⟨q1, _ | ⟨q2, qs⟩⟩ <;>
        simp [pump_dispatch, Except.toOption]
    · intro hm
      have hmem : STDIN ∈ (p0 :: rest).filter (fun p => decide (p = STDIN)) :=
        List.mem_filter.mpr ⟨List.mem_cons_of_mem _ hm, by simp⟩
      exact List.length_pos_of_mem hmem

/-- Claim C8 witness: with a trivial walker, the path list
`["a.py", "-", "b.py"]` (sentinel in a later position) produces the same
results as `["a.py", "b.py"]`, does not fail, and logs one warning; and the
stdin forms behave as specified. -/
theorem ufmt_C8_stdin_routing_witness :
    ufmt_paths_results (fun p => [p]) (fun p => { path := p })
        (fun p => { path := p }) ["a.py", "-", "b.py"] =
      ufmt_paths_results (fun p => [p]) (fun p => { path := p })
        (fun p => { path := p }) ["a.py", "b.py"] ∧
    ufmt_paths_results (fun p => [p]) (fun p => { path := p })
        (fun p => { path := p }) ["-", "name.py", "extra.py"] =
      Except.error (Exc.mk "too many stdin paths") :=
  ⟨(ufmt_C8_stdin_routing.2.2.2 (fun p => [p]) (fun p => { path := p })
      (fun p => { path := p }) "a.py" ["-", "b.py"] (by decide)).1,
   ufmt_C8_stdin_routing.1 (fun p => [p]) (fun p => { path := p })
      (fun p => { path := p }) "name.py" "extra.py" []⟩

/-- Claim C9: for a non-stdin invocation, `ufmt_paths` pumps the discovered
path sequence: zero discovered paths yield no results; exactly one is routed
to the `single` mode (run in the calling process, no pool) and yields that
file's result; two or more are routed to the `pool` mode carrying the first
two plus the remainder, and the run yields exactly one result per discovered
path (completion order across pool workers is external to this model). -/
theorem ufmt_C9_dispatch :
    ∀ (walk : Path → List Path) (fn stdin_fn : Path → Result) (p0 : Path)
      (rest : List Path), p0 ≠ STDIN →
      (generate_paths walk (p0 :: rest) = [] →
        ufmt_paths_results walk fn stdin_fn (p0 :: rest) = Except.ok []) ∧
      (∀ p, generate_paths walk (p0 :: rest) = [p] →
        ufmt_paths_route walk (p0 :: rest) = PathsOutcome.single p ∧
        ufmt_paths_results walk fn stdin_fn (p0 :: rest) = Except.ok [fn p]) ∧
      (∀ p1 p2 ps, generate_paths walk (p0 :: rest) = p1 :: p2 :: ps →
        ufmt_paths_route walk (p0 :: rest) =
          PathsOutcome.pool (p1 :: p2 :: ps) ∧
        ufmt_paths_results walk fn stdin_fn (p0 :: rest) =
          Except.ok ((p1 :: p2 :: ps).map fn) ∧
        ((p1 :: p2 :: ps).map fn).length =
          (generate_paths walk (p0 :: rest)).length) := by
  intro walk fn stdin_fn p0 rest h
  refine ⟨?_, ?_, ?_⟩
  · intro hg
    simp only [ufmt_paths_results, ufmt_paths_route]
    rw [if_neg h, hg]
    rfl
  · intro p hg
    simp only [ufmt_paths_results, ufmt_paths_route]
    rw [if_neg h, hg]
    exact ⟨rfl, rfl⟩
  · intro p1 p2 ps hg
    simp only [ufmt_paths_results, ufmt_paths_route]
    rw [if_neg h, hg]
    refine ⟨rfl, rfl, ?_⟩
    simp

/-- Claim C9 witness: a walker discovering two files under `"src"` routes the
run to the pool mode and yields one result per discovered file. -/
theorem ufmt_C9_dispatch_witness :
    ufmt_paths_route (fun _ => ["src/a.py", "src/b.py"])
        ["src"] = PathsOutcome.pool ["src/a.py", "src/b.py"] ∧
    ufmt_paths_results (fun _ => ["src/a.py", "src/b.py"])
        (fun p => { path := p }) (fun p => { path := p }) ["src"] =
      Except.ok [{ path := "src/a.py" }, { path := "src/b.py" }] :=
  ⟨((ufmt_C9_dispatch (fun _ => ["src/a.py", "src/b.py"])
      (fun p => { path := p }) (fun p => { path := p }) "src" []
      (by decide)).2.2 "src/a.py" "src/b.py" [] rfl).1,
   ((ufmt_C9_dispatch (fun _ => ["src/a.py", "src/b.py"])
      (fun p => { path := p }) (fun p => { path := p }) "src" []
      (by decide)).2.2 "src/a.py" "src/b.py" [] rfl).2.1⟩

/-!
Claim C1 — the `Result` data-model invariants.
-/

/-- A file whose content the pipeline changes and whose write fails: the
scenario exercising the write-failure arm of `ufmt_file`. -/
def writeFailEnv : FileEnv :=
  mkFileEnv (Except.ok ([97], "utf-8", LF))
    (fun c _ => Except.ok (c ++ [10]))
    (Except.error (Exc.mk "disk full"))

/-- Claim C1 counterexample: when the transformed content differs and the
write raises, `ufmt_file` returns a `Result` with `error` set *and*
`changed = true` — refuting the claimed invariant that an error implies
`changed` is false. -/
theorem ufmt_C1_counterexample :
    (ufmt_file writeFailEnv "a.py" false false false).toOption.isSome =
      true ∧
    ((ufmt_file writeFailEnv "a.py" false false
        false).toOption.getD ⟨{ path := "" }, false⟩).result.error =
      some (Exc.mk "disk full") ∧
    ((ufmt_file writeFailEnv "a.py" false false
        false).toOption.getD ⟨{ path := "" }, false⟩).result.changed =
      true := by
  refine ⟨rfl, rfl, rfl⟩

/-- Claim C1 (amended): every `Result` a completed `ufmt_file` call returns
satisfies: `written ⇒ changed`; `skipped` set implies the content is treated
as unchanged (`changed` and `written` false) and no error; `error` and
`skipped` are mutually exclusive, so at most one of error, skip and normal
completion holds; `error` set implies `written` is false; and `error` can
coexist with `changed = true` only on the write-failure arm (when `error` is
set without a write having been attempted, `changed` is false). -/
theorem ufmt_C1_invariants :
    ∀ (env : FileEnv) (path : Path) (dr df rc : Bool) (o : FileOutcome),
      ufmt_file env path dr df rc = Except.ok o →
      (o.result.written = true → o.result.changed = true) ∧
      (o.result.skipped ≠ SkipVal.bool false →
        o.result.changed = false ∧ o.result.written = false ∧
        o.result.error = none) ∧
      (o.result.error ≠ none → o.result.written = false) ∧
      (o.result.error ≠ none → o.result.skipped = SkipVal.bool false) ∧
      (o.result.error ≠ none → o.result.changed = true →
        o.writeCalled = true) := by
  intro env path dr df rc o
  unfold ufmt_file
  split
  · intro h
    simp at h
  · split
    · intro h
      simp only [Except.ok.injEq] at h
      subst h
      simp
    · rename_i src enc nl heqr
      split
      · intro h
        simp only [Except.ok.injEq] at h
        subst h
        simp
      · intro h
        simp only [Except.ok.injEq] at h
        subst h
        simp
      · rename_i dst heqp
        simp only []
        split
        · split
          · intro h
            simp at h
          · split
            · split
              · intro h
                simp only [Except.ok.injEq] at h
                subst h
                cases df <;> cases rc <;> simp
              · intro h
                simp only [Except.ok.injEq] at h
                subst h
                cases df <;> cases rc <;> simp
            · intro h
              simp only [Except.ok.injEq] at h
              subst h
              cases df <;> cases rc <;> simp
        · intro h
          simp only [Except.ok.injEq] at h
          subst h
          cases rc <;> simp

/-- Claim C1 witness: a successful formatting run that changes and writes a
file satisfies the invariants. -/
theorem ufmt_C1_invariants_witness :
    let o : FileOutcome :=
      ⟨{ path := "a.py", changed := true, written := true }, true⟩
    (o.result.written = true → o.result.changed = true) ∧
    (o.result.skipped ≠ SkipVal.bool false →
      o.result.changed = false ∧ o.result.written = false ∧
      o.result.error = none) ∧
    (o.result.error ≠ none → o.result.written = false) ∧
    (o.result.error ≠ none → o.result.skipped = SkipVal.bool false) ∧
    (o.result.error ≠ none → o.result.changed = true →
      o.writeCalled = true) :=
  ufmt_C1_invariants
    (mkFileEnv (Except.ok ([97], "utf-8", LF))
      (fun c _ => Except.ok (c ++ [10])) (Except.ok ()))
    "a.py" false false false
    ⟨{ path := "a.py", changed := true, written := true }, true⟩ (by decide)

/-!
Claims C5, C6 and C10 — error isolation, write outcomes, snapshot framing.
-/

/-- Once configuration resolution has succeeded, `ufmt_file` returns a
`Result` — every failure inside the `try` block (read, transform, write) is
caught and recorded rather than propagated — provided the snapshot/diff
section after the `try` block cannot raise: either no diff was requested, or
the decode/unified-diff step returns on every input. -/
theorem ufmt_file_isSome (env : FileEnv) (path : Path) (dr df rc : Bool)
    (hc : env.configResult = Except.ok ())
    (hd : df = false ∨ ∀ a b, (env.mkdiff a b).toOption ≠ none) :
    (ufmt_file env path dr df rc).toOption ≠ none := by
  unfold ufmt_file
  split
  · rename_i e heq
    rw [hc] at heq
    simp at heq
  · split
    · simp [Except.toOption]
    · rename_i src enc nl heqr
      split
      · simp [Except.toOption]
      · simp [Except.toOption]
      · rename_i dst heqp
        simp only []
        split
        · split
          · rename_i e heq
            rcases hd with hdf | hmk
            · rw [hdf] at heq
              simp at heq
            · by_cases hdf2 : df = true
              · rw [if_pos hdf2] at heq
                rcases hmk2 : env.mkdiff (normalize_result src nl)
                    (normalize_result dst nl) with e2 | d
                · exact absurd
                    (by simp [hmk2, Except.toOption] :
                      (env.mkdiff (normalize_result src nl)
                        (normalize_result dst nl)).toOption = none)
                    (hmk _ _)
                · rw [hmk2] at heq
                  simp at heq
              · rw [if_neg hdf2] at heq
                simp at heq
          · split
            · split
              · simp [Except.toOption]
              · simp [Except.toOption]
            · simp [Except.toOption]
        · simp [Except.toOption]

/-- A `FileEnv` whose configuration resolution raises: `load_config`,
`make_black_config` and `UsortConfig.find` run before the `try` block in
`ufmt_file`. -/
def cfgFailEnv : FileEnv where
  configResult := Except.error (Exc.mk "bad config")
  readResult := Except.ok ([97], "utf-8", LF)
  pipeline := fun c _ => Except.ok c
  writeResult := fun _ _ => Except.ok ()
  mkdiff := fun _ _ => Except.ok ""

/-- A file whose pipeline completes with bytes that are undecodable in the
detected encoding (e.g. a post-processor returning `b"\xff"`), run with
`diff=True`: the `decode` inside the unified-diff step at the end of
`ufmt_file` raises `UnicodeDecodeError`. -/
def diffFailEnv : FileEnv where
  configResult := Except.ok ()
  readResult := Except.ok ([97], "utf-8", LF)
  pipeline := fun c _ => Except.ok (c ++ [255])
  writeResult := fun _ _ => Except.ok ()
  mkdiff := fun _ _ => Except.error (Exc.mk "UnicodeDecodeError")

/-- Claim C5 counterexample: two errors raised while processing an individual
file escape `ufmt_file` instead of being attached to a returned `Result` —
an error during configuration resolution (before the `try` block), and an
error from the decode/unified-diff step (after the `try` block, with
`diff=True` on changed, undecodable content). -/
theorem ufmt_C5_counterexample :
    ufmt_file cfgFailEnv "a.py" false false false =
      Except.error (Exc.mk "bad config") ∧
    (ufmt_file cfgFailEnv "a.py" false false false).toOption = none ∧
    ufmt_file diffFailEnv "a.py" false true false =
      Except.error (Exc.mk "UnicodeDecodeError") ∧
    (ufmt_file diffFailEnv "a.py" false true false).toOption = none := by
  exact ⟨rfl, rfl, rfl, rfl⟩

/-- Claim C5 (amended): every error raised inside the `try` block of
`ufmt_file` — reading, the transform pipeline, and the write — is caught and
attached to that file's `Result.error`; a `Result` is always returned unless
one of the two code paths outside the `try` block raises: configuration
resolution (before the `try`) or the decode/unified-diff step (after the
`try`, reachable only with `diff=True` on changed content).  With no diff
requested, or a diff step that returns on every input, `ufmt_file` is total
for config-resolved files.  Reading the file is the only checked failure
point before any transform runs: a read failure sets `Result.error` and
returns immediately, with nothing else touched and no write performed.  A
failure in one file never aborts or affects sibling files: a batch maps each
file to its own `ufmt_file` call, yields one outcome per file, and replacing
one file's task leaves every sibling outcome unchanged. -/
theorem ufmt_C5_error_isolation :
    (∀ (env : FileEnv) (path : Path) (dr df rc : Bool),
      env.configResult = Except.ok () →
      (∀ a b, (env.mkdiff a b).toOption ≠ none) →
      (ufmt_file env path dr df rc).toOption ≠ none) ∧
    (∀ (env : FileEnv) (path : Path) (dr rc : Bool),
      env.configResult = Except.ok () →
      (ufmt_file env path dr false rc).toOption ≠ none) ∧
    (∀ (env : FileEnv) (path : Path) (dr df rc : Bool) (e : Exc),
      env.configResult = Except.ok () →
      env.readResult = Except.error e →
      ufmt_file env path dr df rc =
        Except.ok ⟨{ path := path, error := some e }, false⟩) ∧
    (∀ (tasks : List (FileEnv × Path)) (dr df rc : Bool),
      (ufmt_batch tasks dr df rc).length = tasks.length) ∧
    (∀ (ts1 ts2 : List (FileEnv × Path)) (t : FileEnv × Path)
        (dr df rc : Bool),
      ufmt_batch (ts1 ++ t :: ts2) dr df rc =
        ufmt_batch ts1 dr df rc ++
          ufmt_file t.1 t.2 dr df rc :: ufmt_batch ts2 dr df rc) := by
  refine ⟨?_, ?_, ?_, ?_, ?_⟩
  · intro env path dr df rc hc hmk
    exact ufmt_file_isSome env path dr df rc hc (Or.inr hmk)
  · intro env path dr rc hc
    exact ufmt_file_isSome env path dr false rc hc (Or.inl rfl)
  · intro env path dr df rc e hc hr
    unfold ufmt_file
    simp only [hc, hr]
  · intro tasks dr df rc
    simp [ufmt_batch]
  · intro ts1 ts2 t dr df rc
    simp [ufmt_batch]

/-- Claim C5 witness: with successful configuration and a failing read, the
returned `Result` carries the read error and nothing else happened. -/
theorem ufmt_C5_error_isolation_witness :
    ufmt_file (mkFileEnv (Except.error (Exc.mk "not found"))
        (fun c _ => Except.ok c) (Except.ok ())) "a.py" false false false =
      Except.ok ⟨{ path := "a.py", error := some (Exc.mk "not found") },
        false⟩ :=
  ufmt_C5_error_isolation.2.2.1
    (mkFileEnv (Except.error (Exc.mk "not found"))
      (fun c _ => Except.ok c) (Except.ok ()))
    "a.py" false false false (Exc.mk "not found") rfl rfl

/-- Claim C6: when the transformed bytes differ from the original and
`dry_run` is false, `ufmt_file` invokes the write; if the write succeeds the
`Result` has `written = true` with `changed = true` and no error, and if the
write raises, the exception lands on `Result.error` while `changed` stays
true and `written` stays false.  (When a diff is requested, the external
decode/diff step preceding the write is assumed to return `d`; its failure
mode is the subject of C5.) -/
theorem ufmt_C6_write_outcomes :
    ∀ (env : FileEnv) (path : Path) (df rc : Bool) (src : Bytes)
      (enc : Encoding) (nl : Bytes) (dst : Bytes) (d : String),
      env.configResult = Except.ok () →
      env.readResult = Except.ok (src, enc, nl) →
      env.pipeline src enc = Except.ok dst →
      src ≠ dst →
      (df = true →
        env.mkdiff (normalize_result src nl) (normalize_result dst nl) =
          Except.ok d) →
      (env.writeResult dst nl = Except.ok () →
        ufmt_file env path false df rc = Except.ok
          ⟨{ path := path, changed := true, written := true,
             diff := if df = true then some d else none,
             before := if rc = true then normalize_result src nl else [],
             after := if rc = true then normalize_result dst nl else [] },
           true⟩) ∧
      (∀ e, env.writeResult dst nl = Except.error e →
        ufmt_file env path false df rc = Except.ok
          ⟨{ path := path, changed := true, written := false,
             error := some e,
             diff := if df = true then some d else none,
             before := if rc = true then normalize_result src nl else [],
             after := if rc = true then normalize_result dst nl else [] },
           true⟩) := by
  intro env path df rc src enc nl dst d hc hr hp hne hd
  constructor
  · intro hw
    cases df
    · cases rc <;> simp [ufmt_file, hc, hr, hp, hne, hw]
    · cases rc <;> simp [ufmt_file, hc, hr, hp, hne, hw, hd rfl]
  · intro e hw
    cases df
    · cases rc <;> simp [ufmt_file, hc, hr, hp, hne, hw]
    · cases rc <;> simp [ufmt_file, hc, hr, hp, hne, hw, hd rfl]

/-- Claim C6 witness: a concrete changed file whose write succeeds comes back
`changed = true, written = true`. -/
theorem ufmt_C6_write_outcomes_witness :
    ufmt_file (mkFileEnv (Except.ok ([97], "utf-8", LF))
        (fun c _ => Except.ok (c ++ [10])) (Except.ok ()))
        "a.py" false false false =
      Except.ok ⟨{ path := "a.py", changed := true, written := true },
        true⟩ :=
  (ufmt_C6_write_outcomes
    (mkFileEnv (Except.ok ([97], "utf-8", LF))
      (fun c _ => Except.ok (c ++ [10])) (Except.ok ()))
    "a.py" false false [97] "utf-8" LF [97, 10] ""
    rfl rfl (by decide) (by decide) (fun h => by simp at h)).1 rfl

/-- Claim C10: when the pipeline escapes with a skip signal or any exception,
the returned `Result` is exactly the freshly constructed one with `skipped`
or `error` set: `before = b""`, `after = b""` and `diff = None` regardless of
the `return_content` and `diff` flags — content snapshots and diffs exist
only on the normal-completion path. -/
theorem ufmt_C10_snapshots :
    ∀ (env : FileEnv) (path : Path) (dr df rc : Bool) (src : Bytes)
      (enc : Encoding) (nl : Bytes),
      env.configResult = Except.ok () →
      env.readResult = Except.ok (src, enc, nl) →
      (∀ m, env.pipeline src enc = Except.error (PipeExc.skipfmt m) →
        ufmt_file env path dr df rc =
          Except.ok ⟨{ path := path, skipped := skippedValue m }, false⟩) ∧
      (∀ e, env.pipeline src enc = Except.error (PipeExc.exc e) →
        ufmt_file env path dr df rc =
          Except.ok ⟨{ path := path, error := some e }, false⟩) := by
  intro env path dr df rc src enc nl hc hr
  constructor
  · intro m hp
    unfold ufmt_file
    simp only [hc, hr, hp]
  · intro e hp
    unfold ufmt_file
    simp only [hc, hr, hp]

/-- Claim C10 witness: a pipeline skip with `return_content = true` and
`diff = true` still yields empty before/after snapshots and no diff. -/
theorem ufmt_C10_snapshots_witness :
    ufmt_file (mkFileEnv (Except.ok ([97], "utf-8", LF))
        (fun _ _ => Except.error (PipeExc.skipfmt "because"))
        (Except.ok ())) "a.py" false true true =
      Except.ok ⟨{ path := "a.py", skipped := skippedValue "because" },
        false⟩ :=
  (ufmt_C10_snapshots
    (mkFileEnv (Except.ok ([97], "utf-8", LF))
      (fun _ _ => Except.error (PipeExc.skipfmt "because")) (Except.ok ()))
    "a.py" false true true [97] "utf-8" LF rfl rfl).1 "because" rfl

end Ufmt
